import Mathlib

/-!
Formal model of the sample-request generation and operation-search tools
of the developers-agent-toolkit repository
(`src/typescript/src/shared/tools/operations/generateApiSampleRequest.ts`
and `src/typescript/src/shared/tools/operations/searchApiOperations.ts`).

JSON values are modelled by `Json`.  JavaScript's `undefined` is represented
by `Option` (`none` = absent / `undefined`) wherever the source distinguishes
absence from JSON `null`; JSON `null` is the constructor `Json.null`.
-/

/-- JSON values.  Numbers are restricted to integers: the synthesizer only
ever produces the integer `0`, and no behaviour under scrutiny depends on
fractional number formatting. -/
inductive Json where
  | null : Json
  | bool (b : Bool) : Json
  | num (n : Int) : Json
  | str (s : String) : Json
  | arr (elems : List Json) : Json
  | obj (fields : List (String × Json)) : Json

/-- Concatenation of a list of strings (model of joining string segments). -/
def strJoin : List String → String
  | [] => ""
  | s :: rest => s ++ strJoin rest

/-- Model of JavaScript `String.prototype.toLowerCase` (character-wise
lowercasing; the inputs under scrutiny are ASCII). -/
def toLowerStr (s : String) : String :=
  String.mk (s.data.map Char.toLower)

/-- Model of JavaScript `String.prototype.toUpperCase` (character-wise
uppercasing; the inputs under scrutiny are ASCII). -/
def toUpperStr (s : String) : String :=
  String.mk (s.data.map Char.toUpper)

/-- Model of JavaScript `Array.prototype.join(sep)` for an array of strings. -/
def strIntercalate (sep : String) : List String → String
  | [] => ""
  | [x] => x
  | x :: y :: rest => x ++ sep ++ strIntercalate sep (y :: rest)

/-- First-match association-list lookup, modelling JavaScript property
lookup `o[key]` on an object literal (object keys are unique, so
first-match agrees with the JavaScript semantics). -/
def lookupFirst {α : Type} : List (String × α) → String → Option α
  | [], _ => none
  | (k, v) :: rest, key => if k = key then some v else lookupFirst rest key

mutual

/-- Model of the JavaScript `String(value)` coercion (as also performed by
template-literal interpolation) on a JSON value. -/
def jsToString : Json → String
  | .null => "null"
  | .bool b => if b then "true" else "false"
  | .num n => toString n
  | .str s => s
  | .arr xs => jsArrayJoin xs
  | .obj _ => "[object Object]"

/-- Model of `Array.prototype.toString` (comma join, with `null` elements
rendered as the empty string). -/
def jsArrayJoin : List Json → String
  | [] => ""
  | [.null] => ""
  | [x] => jsToString x
  | .null :: y :: rest => "," ++ jsArrayJoin (y :: rest)
  | x :: y :: rest => jsToString x ++ "," ++ jsArrayJoin (y :: rest)

end

/-- Lowercase hexadecimal digit, used by control-character escapes. -/
def hexDigitLower (n : Nat) : Char :=
  if n < 10 then Char.ofNat (48 + n) else Char.ofNat (87 + n)

/-- Escape of one character inside a JSON string literal, following
`JSON.stringify`. -/
def jsonEscapeChar (c : Char) : String :=
  if c = '"' then "\\\""
  else if c = '\\' then "\\\\"
  else if c = '\x08' then "\\b"
  else if c = '\x0c' then "\\f"
  else if c = '\n' then "\\n"
  else if c = '\r' then "\\r"
  else if c = '\t' then "\\t"
  else if c.toNat < 0x20 then
    "\\u00" ++ String.mk [hexDigitLower (c.toNat / 16), hexDigitLower (c.toNat % 16)]
  else String.singleton c

/-- JSON string literal rendering (quote and escape), as in `JSON.stringify`. -/
def jsonQuote (s : String) : String :=
  "\"" ++ strJoin (s.data.map jsonEscapeChar) ++ "\""

mutual

/-- Model of `JSON.stringify(v)` (compact form, no indentation). -/
def jsonStringify : Json → String
  | .null => "null"
  | .bool b => if b then "true" else "false"
  | .num n => toString n
  | .str s => jsonQuote s
  | .arr xs => "[" ++ jsonStringifyArr xs ++ "]"
  | .obj kvs => "\x7b" ++ jsonStringifyObj kvs ++ "\x7d"

/-- Comma-separated compact serialization of array elements. -/
def jsonStringifyArr : List Json → String
  | [] => ""
  | [x] => jsonStringify x
  | x :: y :: rest => jsonStringify x ++ "," ++ jsonStringifyArr (y :: rest)

/-- Comma-separated compact serialization of object members. -/
def jsonStringifyObj : List (String × Json) → String
  | [] => ""
  | [(k, v)] => jsonQuote k ++ ":" ++ jsonStringify v
  | (k, v) :: kv :: rest =>
    jsonQuote k ++ ":" ++ jsonStringify v ++ "," ++ jsonStringifyObj (kv :: rest)

end

mutual

/-- Model of `JSON.stringify(v, null, 2)` at current indentation `ind`:
pretty-printed JSON with two-space indentation. -/
def jsonPretty (ind : String) : Json → String
  | .arr [] => "[]"
  | .arr (x :: xs) =>
    "[\n" ++ jsonPrettyArr (ind ++ "  ") (x :: xs) ++ "\n" ++ ind ++ "]"
  | .obj [] => "\x7b\x7d"
  | .obj (kv :: kvs) =>
    "\x7b\n" ++ jsonPrettyObj (ind ++ "  ") (kv :: kvs) ++ "\n" ++ ind ++ "\x7d"
  | .null => "null"
  | .bool b => if b then "true" else "false"
  | .num n => toString n
  | .str s => jsonQuote s

/-- Pretty-printed array elements, one per line, comma separated. -/
def jsonPrettyArr (ind : String) : List Json → String
  | [] => ""
  | [x] => ind ++ jsonPretty ind x
  | x :: y :: rest => ind ++ jsonPretty ind x ++ ",\n" ++ jsonPrettyArr ind (y :: rest)

/-- Pretty-printed object members, one per line, comma separated. -/
def jsonPrettyObj (ind : String) : List (String × Json) → String
  | [] => ""
  | [(k, v)] => ind ++ jsonQuote k ++ ": " ++ jsonPretty ind v
  | (k, v) :: kv :: rest =>
    ind ++ jsonQuote k ++ ": " ++ jsonPretty ind v ++ ",\n" ++ jsonPrettyObj ind (kv :: rest)

end

/-- Uppercase hexadecimal digit, used by percent-encoding. -/
def hexDigitUpper (n : Nat) : Char :=
  if n < 10 then Char.ofNat (48 + n) else Char.ofNat (55 + n)

/-- UTF-8 byte sequence of a Unicode code point. -/
def utf8Bytes (n : Nat) : List Nat :=
  if n < 0x80 then [n]
  else if n < 0x800 then [0xC0 + n / 64, 0x80 + n % 64]
  else if n < 0x10000 then [0xE0 + n / 4096, 0x80 + (n / 64) % 64, 0x80 + n % 64]
  else [0xF0 + n / 262144, 0x80 + (n / 4096) % 64, 0x80 + (n / 64) % 64, 0x80 + n % 64]

/-- Characters left unescaped by JavaScript `encodeURIComponent`. -/
def uriUnreservedChar (c : Char) : Bool :=
  c.isAlpha || c.isDigit || c = '-' || c = '_' || c = '.' || c = '!' ||
    c = '~' || c = '*' || c = '\'' || c = '(' || c = ')'

/-- Model of JavaScript `encodeURIComponent`. -/
def encodeURIComponent (s : String) : String :=
  strJoin (s.data.map fun c =>
    if uriUnreservedChar c then String.singleton c
    else strJoin ((utf8Bytes c.toNat).map fun b =>
      "%" ++ String.mk [hexDigitUpper (b / 16), hexDigitUpper (b % 16)]))

/-- Replacement of the first occurrence of `pat` in a character list,
modelling JavaScript `String.prototype.replace` with a string pattern.
If the pattern does not occur the list is unchanged. -/
def replaceFirstList (pat repl : List Char) : List Char → List Char
  | [] => if pat = [] then repl else []
  | c :: rest =>
    if pat.isPrefixOf (c :: rest) then repl ++ (c :: rest).drop pat.length
    else c :: replaceFirstList pat repl rest

/-- String-level first-occurrence replacement.  The replacement strings fed
to it by the assembler are percent-encoded, hence never contain `$`, so the
`$`-substitution patterns of JavaScript `replace` cannot arise. -/
def replaceFirst (s pat repl : String) : String :=
  String.mk (replaceFirstList pat.data repl.data s.data)

/-- Schema node of the OpenAPI specification, holding exactly the properties
read by `generateExample`: `example`, `default`, `enum`, `type`, `items` and
`properties`.  Each property may be absent (`none`).  A property value inside
`properties` may itself be a missing/null schema, hence `Option SchemaNode`. -/
inductive SchemaNode where
  | mk (example? default? : Option Json) (enum? : Option (List Json))
       (type? : Option String) (items? : Option SchemaNode)
       (properties? : Option (List (String × Option SchemaNode))) : SchemaNode

mutual

/-- Model of `generateExample` from `generateApiSampleRequest.ts`: a missing
schema yields the placeholder `"example"`; otherwise the node is consulted
with the precedence example / default / first enum element / type dispatch. -/
def generateExample : Option SchemaNode → Json
  | none => .str "example"
  | some s => generateExampleNode s
termination_by s => sizeOf s
decreasing_by all_goals simp_wf <;> omega

/-- Precedence chain of `generateExample` on a present schema node.  The
source checks `example !== undefined`, then `default !== undefined`, then a
non-empty `enum`, then switches on `type`. -/
def generateExampleNode : SchemaNode → Json
  | .mk (some v) _ _ _ _ _ => v
  | .mk none (some v) _ _ _ _ => v
  | .mk none none (some (v :: _)) _ _ _ => v
  | .mk none none none ty it pr => generateByType ty it pr
  | .mk none none (some []) ty it pr => generateByType ty it pr
termination_by n => sizeOf n
decreasing_by all_goals simp_wf <;> omega

/-- Type dispatch of `generateExample` (the `switch (schema.type)`, which
compares the `type` string against each case label). -/
def generateByType (ty : Option String) (it : Option SchemaNode)
    (pr : Option (List (String × Option SchemaNode))) : Json :=
  if ty = some "string" then .str "string"
  else if ty = some "integer" then .num 0
  else if ty = some "number" then .num 0
  else if ty = some "boolean" then .bool true
  else if ty = some "array" then .arr [generateExample it]
  else if ty = some "object" then .obj (generateExampleProps (pr.getD []))
  else .str "example"
termination_by sizeOf it + sizeOf pr + 1
decreasing_by
  all_goals simp_wf
  all_goals try omega
  all_goals cases pr <;> simp [Option.getD] <;> omega

/-- Recursive synthesis of each declared property, preserving order
(the `for (const [key, value] of Object.entries(schema.properties))` loop). -/
def generateExampleProps : List (String × Option SchemaNode) → List (String × Json)
  | [] => []
  | (k, v) :: rest => (k, generateExample v) :: generateExampleProps rest
termination_by l => sizeOf l
decreasing_by all_goals simp_wf <;> omega

end

mutual

/-- Fuel-indexed variant of `generateExample`: one unit of fuel is consumed
on each recursive entry into `generateExample`, and exhausted fuel yields
`none`.  It makes the recursion depth of the source function explicit, so
that termination on every finite schema is a provable statement. -/
def generateExampleFuel : Nat → Option SchemaNode → Option Json
  | 0, _ => none
  | _ + 1, none => some (.str "example")
  | _ + 1, some (.mk (some v) _ _ _ _ _) => some v
  | _ + 1, some (.mk none (some v) _ _ _ _) => some v
  | _ + 1, some (.mk none none (some (v :: _)) _ _ _) => some v
  | n + 1, some (.mk none none none ty it pr) => generateByTypeFuel n ty it pr
  | n + 1, some (.mk none none (some []) ty it pr) => generateByTypeFuel n ty it pr

/-- Fuel-indexed type dispatch. -/
def generateByTypeFuel (n : Nat) (ty : Option String) (it : Option SchemaNode)
    (pr : Option (List (String × Option SchemaNode))) : Option Json :=
  if ty = some "string" then some (.str "string")
  else if ty = some "integer" then some (.num 0)
  else if ty = some "number" then some (.num 0)
  else if ty = some "boolean" then some (.bool true)
  else if ty = some "array" then (generateExampleFuel n it).map fun v => .arr [v]
  else if ty = some "object" then (generateExamplePropsFuel n (pr.getD [])).map Json.obj
  else some (.str "example")

/-- Fuel-indexed property synthesis. -/
def generateExamplePropsFuel :
    Nat → List (String × Option SchemaNode) → Option (List (String × Json))
  | _, [] => some []
  | n, (k, v) :: rest =>
    match generateExampleFuel n v, generateExamplePropsFuel n rest with
    | some j, some js => some ((k, j) :: js)
    | _, _ => none

end

/-- Server entry of an operation document (`servers[i]`); its `url` may be
absent. -/
structure Server where
  url : Option String

/-- Parameter of an operation document: `name`, `in` location, optional
`schema` and optional literal `example`. -/
structure Param where
  name : String
  «in» : Option String
  schema : Option SchemaNode
  «example» : Option Json

/-- Media-type content of a request body: optional literal `example` and
optional `schema`. -/
structure MediaContent where
  «example» : Option Json
  schema : Option SchemaNode

/-- Request body: a mapping from media type to content.  An entry whose
value is JSON `null` is modelled as `none`, matching the falsiness check
`if (jsonContent)` in the source. -/
structure RequestBody where
  content : Option (List (String × Option MediaContent))

/-- Operation document, holding the attributes consumed by the assembler:
`servers`, `path`, `parameters`, `requestBody`. -/
structure OperationDoc where
  servers : Option (List Server)
  path : Option String
  parameters : Option (List Param)
  requestBody : Option RequestBody

/-- Mutable state of the parameter loop in `execute`: the URL path being
substituted, the query-parameter strings and the header lines. -/
structure AsmState where
  urlPath : String
  queryParams : List String
  headers : List String

/-- Resolution of a parameter's value: `param.example ?? generateExample(param.schema)`.
The `??` operator is nullish coalescing, so an example that is JSON `null`
falls through to the synthesizer exactly like an absent example. -/
def paramValue (p : Param) : Json :=
  match p.«example» with
  | some .null => generateExample p.schema
  | some v => v
  | none => generateExample p.schema

/-- One iteration of the `for (const param of details.parameters)` loop. -/
def processParam (st : AsmState) (p : Param) : AsmState :=
  if p.«in» = some "path" then
    { st with urlPath := replaceFirst st.urlPath ("\x7b" ++ p.name ++ "\x7d")
                           (encodeURIComponent (jsToString (paramValue p))) }
  else if p.«in» = some "query" then
    { st with queryParams := st.queryParams ++
                [encodeURIComponent p.name ++ "=" ++
                  encodeURIComponent (jsToString (paramValue p))] }
  else if p.«in» = some "header" then
    { st with headers := st.headers ++ [p.name ++ ": " ++ jsToString (paramValue p)] }
  else st

/-- The whole parameter loop. -/
def processParams (ps : List Param) (st : AsmState) : AsmState :=
  ps.foldl processParam st

/-- Base URL resolution: `details.servers?.[0]?.url ?? 'https://api.mastercard.com'`. -/
def serverUrlOf (d : OperationDoc) : String :=
  match d.servers with
  | some (s :: _) => s.url.getD "https://api.mastercard.com"
  | _ => "https://api.mastercard.com"

/-- URL template resolution: `details.path || path`.  This is a truthiness
test, so an empty-string `path` field also falls back to the caller path. -/
def urlTemplate (d : OperationDoc) (callerPath : String) : String :=
  match d.path with
  | some p => if p = "" then callerPath else p
  | none => callerPath

/-- Lookup of `details.requestBody?.content?.['application/json']`, with a
JSON-`null` entry behaving as absent under the `if (jsonContent)` check. -/
def jsonContentOf (d : OperationDoc) : Option MediaContent :=
  match d.requestBody with
  | none => none
  | some rb =>
    match rb.content with
    | none => none
    | some entries => (lookupFirst entries "application/json").bind id

/-- Body value resolution: `jsonContent.example ?? generateExample(jsonContent.schema)`
(nullish coalescing, as for parameters). -/
def bodyValue (c : MediaContent) : Json :=
  match c.«example» with
  | some .null => generateExample c.schema
  | some v => v
  | none => generateExample c.schema

/-- State after the parameter loop (skipped when `parameters` is not an
array, per `Array.isArray(details.parameters)`). -/
def assembledState (d : OperationDoc) (callerPath : String) : AsmState :=
  match d.parameters with
  | some ps => processParams ps ⟨urlTemplate d callerPath, [], []⟩
  | none => ⟨urlTemplate d callerPath, [], []⟩

/-- Header list of the final command: parameter-derived headers in loop
order, then `Content-Type: application/json` pushed when a JSON body is
present. -/
def finalHeaders (d : OperationDoc) (callerPath : String) : List String :=
  (assembledState d callerPath).headers ++
    (match jsonContentOf d with
     | some _ => ["Content-Type: application/json"]
     | none => [])

/-- Core of `execute` from `generateApiSampleRequest.ts`, starting from the
parsed operation document (the upstream fetch and `JSON.parse` are the
collaborator boundary).  Produces the final cURL command string. -/
def executeCore (details : OperationDoc) (method callerPath : String) : String :=
  let st := assembledState details callerPath
  let url := serverUrlOf details ++ st.urlPath ++
    (if st.queryParams = [] then ""
     else "?" ++ strIntercalate "&" st.queryParams)
  let cmd := "curl -X " ++ toUpperStr method ++ " '" ++ url ++ "'"
  let cmd := (finalHeaders details callerPath).foldl
    (fun c h => c ++ " -H '" ++ h ++ "'") cmd
  match jsonContentOf details with
  | some c => cmd ++ " -d '" ++ jsonStringify (bodyValue c) ++ "'"
  | none => cmd

/-- Specified substituted path: fold of first-occurrence placeholder
replacement over the path parameters, in declaration order. -/
def specSubstPath (template : String) (ps : List Param) : String :=
  ps.foldl
    (fun u p =>
      if p.«in» = some "path" then
        replaceFirst u ("\x7b" ++ p.name ++ "\x7d")
          (encodeURIComponent (jsToString (paramValue p)))
      else u)
    template

/-- Specified query sequence: `name=value`, both percent-encoded, for the
query parameters in declaration order. -/
def specQuerySeq (ps : List Param) : List String :=
  ps.filterMap fun p =>
    if p.«in» = some "query" then
      some (encodeURIComponent p.name ++ "=" ++ encodeURIComponent (jsToString (paramValue p)))
    else none

/-- Specified header sequence: `name: value` lines (value not encoded) for
the header parameters in declaration order. -/
def specHeaderSeq (ps : List Param) : List String :=
  ps.filterMap fun p =>
    if p.«in» = some "header" then some (p.name ++ ": " ++ jsToString (paramValue p))
    else none

/-- Specified form of the assembled command, following the output contract:
`curl -X <METHOD> '<url>'`, one ` -H '<header>'` segment per header
(parameter-derived headers in declaration order, then the JSON content-type
header), and a ` -d '<json-body>'` segment exactly when a body is present;
the URL is the base concatenated with the substituted path and, when the
query sequence is non-empty, `?` plus the `&`-joined sequence. -/
def specCommand (base : String) (d : OperationDoc) (method callerPath : String) : String :=
  "curl -X " ++ toUpperStr method ++ " '" ++ base ++
    specSubstPath (urlTemplate d callerPath) (d.parameters.getD []) ++
    (if specQuerySeq (d.parameters.getD []) = [] then ""
     else "?" ++ strIntercalate "&" (specQuerySeq (d.parameters.getD []))) ++ "'" ++
  strJoin ((specHeaderSeq (d.parameters.getD []) ++
      (match jsonContentOf d with
       | some _ => ["Content-Type: application/json"]
       | none => [])).map fun h => " -H '" ++ h ++ "'") ++
  (match jsonContentOf d with
   | some c => " -d '" ++ jsonStringify (bodyValue c) ++ "'"
   | none => "")

/-- Model of JavaScript property access `v[key]` on a parsed JSON value:
access on `null` throws a `TypeError`, objects yield the property value or
`undefined` (`none`), and every other value has no own properties of the
names consulted here, yielding `undefined`. -/
def getField : Json → String → Except String (Option Json)
  | .null, _ => .error "TypeError: Cannot read properties of null"
  | .obj kvs, key => .ok (lookupFirst kvs key)
  | .bool _, _ => .ok none
  | .num _, _ => .ok none
  | .str _, _ => .ok none
  | .arr _, _ => .ok none

/-- Model of `(x ?? '').toLowerCase()` on a field value: absent or `null`
becomes the empty string; a string is lowercased; any other value has no
`toLowerCase` method and throws. -/
def lowerOrEmpty : Option Json → Except String String
  | none => .ok ""
  | some .null => .ok ""
  | some (.str s) => .ok (toLowerStr s)
  | some (.bool _) => .error "TypeError: toLowerCase is not a function"
  | some (.num _) => .error "TypeError: toLowerCase is not a function"
  | some (.arr _) => .error "TypeError: toLowerCase is not a function"
  | some (.obj _) => .error "TypeError: toLowerCase is not a function"

/-- Model of `tags.map((t) => t.toLowerCase())`: elements are lowercased in
order, and the first non-string element throws. -/
def mapLowerE : List Json → Except String (List String)
  | [] => .ok []
  | .str s :: rest => (mapLowerE rest).map fun ls => toLowerStr s :: ls
  | .null :: _ => .error "TypeError: toLowerCase is not a function"
  | .bool _ :: _ => .error "TypeError: toLowerCase is not a function"
  | .num _ :: _ => .error "TypeError: toLowerCase is not a function"
  | .arr _ :: _ => .error "TypeError: toLowerCase is not a function"
  | .obj _ :: _ => .error "TypeError: toLowerCase is not a function"

/-- Model of `Array.isArray(op.tags) ? op.tags.map((t) => t.toLowerCase()) : []`. -/
def lowerTagsE : Option Json → Except String (List String)
  | some (.arr ts) => mapLowerE ts
  | none => .ok []
  | some .null => .ok []
  | some (.bool _) => .ok []
  | some (.num _) => .ok []
  | some (.str _) => .ok []
  | some (.obj _) => .ok []

/-- Infix test on character lists (structural, so that it evaluates by
definitional reduction). -/
def listInfixB (pat : List Char) : List Char → Bool
  | [] => pat.isEmpty
  | c :: rest => pat.isPrefixOf (c :: rest) || listInfixB pat rest

/-- Substring test, modelling JavaScript `String.prototype.includes`. -/
def strIncludes (s sub : String) : Bool :=
  listInfixB sub.data s.data

/-- The filter predicate of `searchApiOperations.execute`, applied to one
operation with the already-lowercased query `qL` and optional
already-lowercased tag `tagL`.  Field accesses and lowercasing may throw on
ill-typed operations, hence the `Except`. -/
def opMatches (qL : String) (tagL : Option String) (op : Json) : Except String Bool :=
  match getField op "summary" with
  | .error e => .error e
  | .ok sv =>
    match lowerOrEmpty sv with
    | .error e => .error e
    | .ok summary =>
      match getField op "description" with
      | .error e => .error e
      | .ok dv =>
        match lowerOrEmpty dv with
        | .error e => .error e
        | .ok description =>
          match getField op "tags" with
          | .error e => .error e
          | .ok tv =>
            match lowerTagsE tv with
            | .error e => .error e
            | .ok tags =>
              .ok ((strIncludes summary qL || strIncludes description qL ||
                      tags.any fun t => strIncludes t qL) &&
                   (match tagL with
                    | none => true
                    | some "" => true
                    | some t => tags.contains t))

/-- Normalization of the parsed payload into an operations array:
`Array.isArray(parsed.operations) ? parsed.operations : Array.isArray(parsed) ? parsed : []`.
Accessing `.operations` on a payload that parsed to JSON `null` throws. -/
def normalizeOperations (parsed : Json) : Except String (List Json) :=
  match getField parsed "operations" with
  | .error e => .error e
  | .ok opsField =>
    match opsField with
    | some (.arr ops) => .ok ops
    | _ =>
      match parsed with
      | .arr ops => .ok ops
      | _ => .ok []

/-- Sequential filtering with a possibly-throwing predicate, modelling
`Array.prototype.filter` whose callback may raise. -/
def filterE {α : Type} (f : α → Except String Bool) : List α → Except String (List α)
  | [] => .ok []
  | x :: xs =>
    match f x with
    | .error e => .error e
    | .ok b =>
      match filterE f xs with
      | .error e => .error e
      | .ok rest => .ok (if b then x :: rest else rest)

/-- The search pipeline after a successful `JSON.parse`: normalize the
payload, filter by the lowercased query and optional lowercased tag, and
pretty-print the matches with two-space indentation. -/
def searchAfterParse (parsed : Json) (query : String) (tag? : Option String) :
    Except String String :=
  match normalizeOperations parsed with
  | .error e => .error e
  | .ok ops =>
    match filterE (opMatches (toLowerStr query) (tag?.map toLowerStr)) ops with
    | .error e => .error e
    | .ok filtered => .ok (jsonPretty "" (.arr filtered))

/-- Core of `searchApiOperations.execute` given the raw response text and
the outcome of the builtin `JSON.parse` (`none` when parsing throws, in
which case the raw response is returned verbatim). -/
def searchCore (response : String) (parsed? : Option Json) (query : String)
    (tag? : Option String) : Except String String :=
  match parsed? with
  | none => .ok response
  | some parsed => searchAfterParse parsed query tag?

/-- Claim-side total field access: the property value of an object, absent
otherwise. -/
def getFieldTotal : Json → String → Option Json
  | .obj kvs, key => lookupFirst kvs key
  | .null, _ => none
  | .bool _, _ => none
  | .num _, _ => none
  | .str _, _ => none
  | .arr _, _ => none

/-- Claim-side string field extraction: an absent (or non-string) summary or
description counts as the empty string. -/
def strFieldOrEmpty (op : Json) (key : String) : String :=
  match getFieldTotal op key with
  | some (.str s) => s
  | none => ""
  | some .null => ""
  | some (.bool _) => ""
  | some (.num _) => ""
  | some (.arr _) => ""
  | some (.obj _) => ""

/-- Claim-side lowercased tag list: a missing or non-array `tags` field is
the empty sequence; string entries are lowercased. -/
def lowerTagsTotal (op : Json) : List String :=
  match getFieldTotal op "tags" with
  | some (.arr ts) => ts.filterMap fun t =>
      match t with
      | .str s => some (toLowerStr s)
      | _ => none
  | none => []
  | some .null => []
  | some (.bool _) => []
  | some (.num _) => []
  | some (.str _) => []
  | some (.obj _) => []

/-- Well-typedness of a summary or description field for the filter: a
string, JSON null, or absent. -/
def strFieldOk : Option Json → Bool
  | none => true
  | some .null => true
  | some (.str _) => true
  | some (.bool _) => false
  | some (.num _) => false
  | some (.arr _) => false
  | some (.obj _) => false

/-- Well-typedness of a tags field for the filter: when it is an array, all
its entries are strings (any non-array shape is ignored by the source). -/
def tagsFieldOk : Option Json → Bool
  | some (.arr ts) => ts.all fun t =>
      match t with
      | .str _ => true
      | _ => false
  | none => true
  | some .null => true
  | some (.bool _) => true
  | some (.num _) => true
  | some (.str _) => true
  | some (.obj _) => true

/-- Well-typedness of an operation for the filter: not JSON `null`, and
when it is an object its `summary` and `description` are strings (or
null/absent) and its `tags`, when an array, contains only strings.  On such
operations the filter cannot throw. -/
def wellTypedOp : Json → Bool
  | .null => false
  | .obj kvs =>
    strFieldOk (lookupFirst kvs "summary") &&
    strFieldOk (lookupFirst kvs "description") &&
    tagsFieldOk (lookupFirst kvs "tags")
  | _ => true

/-- Claim-side match predicate: the lowercased query is a substring of the
lowercased summary, the lowercased description or some lowercased tag, and a
non-empty tag filter must occur among the lowercased tags exactly (an empty
tag filter imposes no constraint, matching the truthiness test in the
source). -/
def specOpMatch (qL : String) (tagL : Option String) (op : Json) : Bool :=
  (strIncludes (toLowerStr (strFieldOrEmpty op "summary")) qL ||
   strIncludes (toLowerStr (strFieldOrEmpty op "description")) qL ||
   (lowerTagsTotal op).any fun t => strIncludes t qL) &&
  (match tagL with
   | none => true
   | some "" => true
   | some t => (lowerTagsTotal op).contains t)

/-- Test for a payload shaped as an object with an `operations` array. -/
def hasOperationsArray : Json → Bool
  | .obj kvs =>
    match lookupFirst kvs "operations" with
    | some (.arr _) => true
    | _ => false
  | .null => false
  | .bool _ => false
  | .num _ => false
  | .str _ => false
  | .arr _ => false

/-- Test for a bare JSON array payload. -/
def isJsonArray : Json → Bool
  | .arr _ => true
  | .null => false
  | .bool _ => false
  | .num _ => false
  | .str _ => false
  | .obj _ => false

/-- Helper: property synthesis is pointwise synthesis over the property
list, preserving order. -/
theorem generateExampleProps_eq_map (l : List (String × Option SchemaNode)) :
    generateExampleProps l = l.map fun kv => (kv.1, generateExample kv.2) := by
  induction l with
  | nil => simp [generateExampleProps]
  | cons kv rest ih =>
    cases kv
    simp [generateExampleProps, ih]

/-- Claim C1: `generateExample` returns the value of the first matching
rule, checked in order: an absent node yields `"example"`; an `example`
field is returned verbatim; else a `default` is returned verbatim; else a
non-empty `enum` yields its first element; else dispatch on `type` gives
`"string"`, `0`, `true`, a one-element array of the synthesized `items`, an
object with the declared properties in order (empty when none), and
`"example"` for any other or missing type. -/
theorem claim_C1 :
    (generateExample none = Json.str "example") ∧
    (∀ v df en ty it pr,
      generateExample (some (SchemaNode.mk (some v) df en ty it pr)) = v) ∧
    (∀ v en ty it pr,
      generateExample (some (SchemaNode.mk none (some v) en ty it pr)) = v) ∧
    (∀ v vs ty it pr,
      generateExample (some (SchemaNode.mk none none (some (v :: vs)) ty it pr)) = v) ∧
    (∀ en it pr, en = none ∨ en = some [] →
      generateExample (some (SchemaNode.mk none none en (some "string") it pr)) =
        Json.str "string") ∧
    (∀ en it pr, en = none ∨ en = some [] →
      generateExample (some (SchemaNode.mk none none en (some "integer") it pr)) =
        Json.num 0) ∧
    (∀ en it pr, en = none ∨ en = some [] →
      generateExample (some (SchemaNode.mk none none en (some "number") it pr)) =
        Json.num 0) ∧
    (∀ en it pr, en = none ∨ en = some [] →
      generateExample (some (SchemaNode.mk none none en (some "boolean") it pr)) =
        Json.bool true) ∧
    (∀ en it pr, en = none ∨ en = some [] →
      generateExample (some (SchemaNode.mk none none en (some "array") it pr)) =
        Json.arr [generateExample it]) ∧
    (∀ en it pr, en = none ∨ en = some [] →
      generateExample (some (SchemaNode.mk none none en (some "object") it pr)) =
        Json.obj ((pr.getD []).map fun kv => (kv.1, generateExample kv.2))) ∧
    (∀ en ty it pr, en = none ∨ en = some [] →
      ty.getD "" ∉ (["string", "integer", "number", "boolean", "array", "object"] : List String) →
      generateExample (some (SchemaNode.mk none none en ty it pr)) = Json.str "example") := by
  refine ⟨by simp [generateExample], ?_, ?_, ?_, ?_, ?_, ?_, ?_, ?_, ?_, ?_⟩
  · intro v df en ty it pr
    simp [generateExample, generateExampleNode]
  · intro v en ty it pr
    simp [generateExample, generateExampleNode]
  · intro v vs ty it pr
    simp [generateExample, generateExampleNode]
  · intro en it pr hen
    rcases hen with rfl | rfl <;> simp [generateExample, generateExampleNode, generateByType]
  · intro en it pr hen
    rcases hen with rfl | rfl <;> simp [generateExample, generateExampleNode, generateByType]
  · intro en it pr hen
    rcases hen with rfl | rfl <;> simp [generateExample, generateExampleNode, generateByType]
  · intro en it pr hen
    rcases hen with rfl | rfl <;> simp [generateExample, generateExampleNode, generateByType]
  · intro en it pr hen
    rcases hen with rfl | rfl <;> simp [generateExample, generateExampleNode, generateByType]
  · intro en it pr hen
    rcases hen with rfl | rfl <;>
      simp [generateExample, generateExampleNode, generateByType, generateExampleProps_eq_map]
  · intro en ty it pr hen hty
    have h1 : ty ≠ some "string" := by rintro rfl; exact hty (by simp)
    have h2 : ty ≠ some "integer" := by rintro rfl; exact hty (by simp)
    have h3 : ty ≠ some "number" := by rintro rfl; exact hty (by simp)
    have h4 : ty ≠ some "boolean" := by rintro rfl; exact hty (by simp)
    have h5 : ty ≠ some "array" := by rintro rfl; exact hty (by simp)
    have h6 : ty ≠ some "object" := by rintro rfl; exact hty (by simp)
    rcases hen with rfl | rfl <;>
      simp [generateExample, generateExampleNode, generateByType, h1, h2, h3, h4, h5, h6]

/-- Witness for claim C1, discharging the rule hypotheses at the `object`
dispatch on a concrete node with one property of missing schema. -/
theorem claim_C1_witness :
    generateExample (some (SchemaNode.mk none none none (some "object") none
      (some [("a", none)]))) = Json.obj [("a", Json.str "example")] := by
  have h := claim_C1.2.2.2.2.2.2.2.2.2.1 none none (some [("a", none)]) (Or.inl rfl)
  simpa [generateExample] using h

/-- Helper: with fuel exceeding the size of the schema, the fuel-indexed
synthesizer terminates with the value of the total one. -/
theorem generateExampleFuel_adequate (n : Nat) :
    (∀ s : Option SchemaNode, sizeOf s < n →
      generateExampleFuel n s = some (generateExample s)) ∧
    (∀ l : List (String × Option SchemaNode), sizeOf l < n →
      generateExamplePropsFuel n l = some (generateExampleProps l)) := by
  induction n with
  | zero =>
    constructor
    · intro s hs; exfalso; cases s <;> simp_arith at hs
    · intro l hl; exfalso; cases l <;> simp_arith at hl
  | succ n ih =>
    have hmain : ∀ s : Option SchemaNode, sizeOf s < n + 1 →
        generateExampleFuel (n + 1) s = some (generateExample s) := by
      intro s hs
      cases s with
      | none => simp [generateExampleFuel, generateExample]
      | some node =>
        obtain ⟨ex, df, en, ty, it, pr⟩ := node
        simp_arith at hs
        have hit : sizeOf it < n := by omega
        have hprl : sizeOf (pr.getD []) < n := by
          cases pr <;> simp_arith at hs ⊢ <;> omega
        have hdisp : generateByTypeFuel n ty it pr = some (generateByType ty it pr) := by
          simp only [generateByTypeFuel, generateByType]
          split_ifs <;> simp [ih.1 it hit, ih.2 (pr.getD []) hprl]
        cases ex with
        | some v => simp [generateExampleFuel, generateExample, generateExampleNode]
        | none =>
          cases df with
          | some v => simp [generateExampleFuel, generateExample, generateExampleNode]
          | none =>
            cases en with
            | none =>
              simp [generateExampleFuel, generateExample, generateExampleNode, hdisp]
            | some l =>
              cases l with
              | nil =>
                simp [generateExampleFuel, generateExample, generateExampleNode, hdisp]
              | cons v vs =>
                simp [generateExampleFuel, generateExample, generateExampleNode]
    refine ⟨hmain, ?_⟩
    intro l
    induction l with
    | nil => intro _; simp [generateExamplePropsFuel, generateExampleProps]
    | cons kv rest ihl =>
      intro hl
      obtain ⟨k, v⟩ := kv
      simp_arith at hl
      have hv : sizeOf v < n + 1 := by omega
      have hrest : sizeOf rest < n + 1 := by omega
      simp [generateExamplePropsFuel, generateExampleProps, hmain v hv,
        ihl (by omega)]

/-- Claim C7: on every finite schema node the synthesizer's recursion
terminates and produces a value — with fuel bounding the recursion depth by
the size of the node, the fuel-indexed synthesizer never exhausts its fuel
and returns exactly the synthesized value. -/
theorem claim_C7 (s : Option SchemaNode) :
    generateExampleFuel (sizeOf s + 1) s = some (generateExample s) :=
  (generateExampleFuel_adequate (sizeOf s + 1)).1 s (Nat.lt_succ_self _)

/-- Helper: the parameter loop decomposes into the substituted path, the
appended query sequence and the appended header sequence. -/
theorem processParams_spec (ps : List Param) (st : AsmState) :
    processParams ps st =
      ⟨specSubstPath st.urlPath ps,
       st.queryParams ++ specQuerySeq ps,
       st.headers ++ specHeaderSeq ps⟩ := by
  induction ps generalizing st with
  | nil => simp [processParams, specSubstPath, specQuerySeq, specHeaderSeq]
  | cons p rest ih =>
    have hstep : processParams (p :: rest) st = processParams rest (processParam st p) := rfl
    rw [hstep, ih]
    by_cases h1 : p.«in» = some "path"
    · simp [processParam, specSubstPath, specQuerySeq, specHeaderSeq, h1]
    · by_cases h2 : p.«in» = some "query"
      · simp [processParam, specSubstPath, specQuerySeq, specHeaderSeq, h1, h2]
      · by_cases h3 : p.«in» = some "header"
        · simp [processParam, specSubstPath, specQuerySeq, specHeaderSeq, h1, h2, h3]
        · simp [processParam, specSubstPath, specQuerySeq, specHeaderSeq, h1, h2, h3]

/-- Helper: string joining distributes over list append. -/
theorem strJoin_append (l1 l2 : List String) :
    strJoin (l1 ++ l2) = strJoin l1 ++ strJoin l2 := by
  induction l1 with
  | nil => simp [strJoin]
  | cons s rest ih => simp [strJoin, ih, String.append_assoc]

/-- Helper: the header fold appends one ` -H '…'` segment per header to the
command prefix. -/
theorem foldl_header_append (hs : List String) (c : String) :
    hs.foldl (fun acc h => acc ++ " -H '" ++ h ++ "'") c =
      c ++ strJoin (hs.map fun h => " -H '" ++ h ++ "'") := by
  induction hs generalizing c with
  | nil => simp [strJoin]
  | cons h rest ih =>
    rw [List.foldl_cons, ih, List.map_cons]
    apply String.ext
    simp [strJoin, String.data_append, List.append_assoc]

/-- Helper: the assembled command equals its specified decomposition with
the code's own base URL. -/
theorem executeCore_eq_specCommand (d : OperationDoc) (m cp : String) :
    executeCore d m cp = specCommand (serverUrlOf d) d m cp := by
  cases hp : d.parameters with
  | none =>
    cases hj : jsonContentOf d <;>
      simp [executeCore, specCommand, finalHeaders, assembledState, hp, hj,
        specSubstPath, specQuerySeq, specHeaderSeq, foldl_header_append, strJoin,
        strJoin_append] <;>
      (apply String.ext; simp [String.data_append, List.append_assoc])
  | some ps =>
    by_cases hq : specQuerySeq ps = [] <;>
      cases hj : jsonContentOf d <;>
        simp [executeCore, specCommand, finalHeaders, assembledState, hp, hj, hq,
          processParams_spec, foldl_header_append, strJoin, strJoin_append] <;>
        (apply String.ext; simp [String.data_append, List.append_assoc])

/-- Claim C2: the assembled output is exactly `curl -X <METHOD> '<url>'`
followed by one ` -H '<header>'` segment per header in order
(parameter-derived headers in declaration order, then the JSON content-type
header when a JSON body is present) and a ` -d '<json-body>'` segment
exactly when a body is present, where `<METHOD>` is the uppercased caller
method and `<url>` is the first server url (or the fixed fallback when
`servers` is absent) concatenated with the substituted path and the optional
`?`-prefixed `&`-joined query sequence. -/
theorem claim_C2 (d : OperationDoc) (m cp : String) :
    (d.servers = none →
      executeCore d m cp = specCommand "https://api.mastercard.com" d m cp) ∧
    (∀ s rest u, d.servers = some (s :: rest) → s.url = some u →
      executeCore d m cp = specCommand u d m cp) := by
  constructor
  · intro h
    have hbase : serverUrlOf d = "https://api.mastercard.com" := by simp [serverUrlOf, h]
    rw [executeCore_eq_specCommand, hbase]
  · intro s rest u hs hu
    have hbase : serverUrlOf d = u := by simp [serverUrlOf, hs, hu]
    rw [executeCore_eq_specCommand, hbase]

/-- Witness for claim C2 on a concrete document without servers. -/
theorem claim_C2_witness :
    executeCore ⟨none, some "/ping", none, none⟩ "get" "/x" =
      specCommand "https://api.mastercard.com" ⟨none, some "/ping", none, none⟩ "get" "/x" :=
  (claim_C2 ⟨none, some "/ping", none, none⟩ "get" "/x").1 rfl

/-- Counterexample to claim C4 as stated: a parameter whose declared
`example` is JSON `null` does not take precedence — the nullish `??`
operator falls through to the synthesizer, which yields `"string"` here. -/
theorem claim_C4_counterexample :
    paramValue ⟨"p", some "query",
        some (SchemaNode.mk none none none (some "string") none none),
        some Json.null⟩ = Json.str "string" ∧
    Json.str "string" ≠ Json.null := by
  constructor
  · simp [paramValue, generateExample, generateExampleNode, generateByType]
  · intro h; cases h

/-- Claim C4 (amended): for parameters and for the JSON request-body
content, the declared `example` is used verbatim whenever present and not
JSON `null`; a `null` example is treated as absent by the nullish `??`
operator, and otherwise the synthesizer is applied to the declared
`schema`. -/
theorem claim_C4 (p : Param) (c : MediaContent) :
    (∀ v, p.«example» = some v → v ≠ Json.null → paramValue p = v) ∧
    ((p.«example» = none ∨ p.«example» = some Json.null) →
      paramValue p = generateExample p.schema) ∧
    (∀ v, c.«example» = some v → v ≠ Json.null → bodyValue c = v) ∧
    ((c.«example» = none ∨ c.«example» = some Json.null) →
      bodyValue c = generateExample c.schema) := by
  refine ⟨?_, ?_, ?_, ?_⟩
  · intro v hv hne
    cases v <;> first
      | exact absurd rfl hne
      | simp [paramValue, hv]
  · rintro (h | h) <;> simp [paramValue, h]
  · intro v hv hne
    cases v <;> first
      | exact absurd rfl hne
      | simp [bodyValue, hv]
  · rintro (h | h) <;> simp [bodyValue, h]

/-- Witness for claim C4 on concrete inputs: a non-null literal example is
returned verbatim, and an absent body example falls back to synthesis. -/
theorem claim_C4_witness :
    paramValue ⟨"p", some "query", none, some (Json.str "ex")⟩ = Json.str "ex" ∧
    bodyValue ⟨none, none⟩ = generateExample none := by
  constructor
  · exact (claim_C4 ⟨"p", some "query", none, some (Json.str "ex")⟩ ⟨none, none⟩).1
      (Json.str "ex") rfl (by simp)
  · exact (claim_C4 ⟨"p", some "query", none, some (Json.str "ex")⟩ ⟨none, none⟩).2.2.2
      (Or.inl rfl)

/-- Counterexample to claim C5 as stated: a document whose `path` field is
present but the empty string is overridden by the caller path, because the
source tests truthiness (`details.path || path`), not presence. -/
theorem claim_C5_counterexample :
    urlTemplate ⟨none, some "", none, none⟩ "/caller" = "/caller" ∧
    "/caller" ≠ "" := by
  constructor
  · rfl
  · decide

/-- Claim C5 (amended): the URL template is the document's own `path`
whenever that field is present and non-empty; the caller-supplied path is
used when the document omits `path` or declares it as the empty string. -/
theorem claim_C5 (d : OperationDoc) (cp : String) :
    (∀ t, d.path = some t → t ≠ "" → urlTemplate d cp = t) ∧
    ((d.path = none ∨ d.path = some "") → urlTemplate d cp = cp) := by
  constructor
  · intro t ht hne; simp [urlTemplate, ht, hne]
  · rintro (h | h) <;> simp [urlTemplate, h]

/-- Witness for claim C5 on a concrete document with a non-empty path. -/
theorem claim_C5_witness :
    urlTemplate ⟨none, some "/payments", none, none⟩ "/x" = "/payments" :=
  (claim_C5 ⟨none, some "/payments", none, none⟩ "/x").1 "/payments" rfl (by decide)

/-- Claim C6: a query parameter appends `name=value` with both parts
percent-encoded, a header parameter appends an unencoded `name: value`
line, both preserving declaration order over the whole loop, any other `in`
location contributes nothing, and resolved values are coerced to their
string form first (`true` and `0` become the texts `true` and `0`). -/
theorem claim_C6 (st : AsmState) (p : Param) :
    (p.«in» = some "query" →
      processParam st p = { st with queryParams := st.queryParams ++
        [encodeURIComponent p.name ++ "=" ++
          encodeURIComponent (jsToString (paramValue p))] }) ∧
    (p.«in» = some "header" →
      processParam st p = { st with headers := st.headers ++
        [p.name ++ ": " ++ jsToString (paramValue p)] }) ∧
    (p.«in» ≠ some "path" → p.«in» ≠ some "query" → p.«in» ≠ some "header" →
      processParam st p = st) ∧
    (∀ ps : List Param,
      (processParams ps st).queryParams = st.queryParams ++ specQuerySeq ps ∧
      (processParams ps st).headers = st.headers ++ specHeaderSeq ps) ∧
    jsToString (Json.bool true) = "true" ∧ jsToString (Json.num 0) = "0" := by
  refine ⟨?_, ?_, ?_, ?_, rfl, rfl⟩
  · intro h
    have hnp : p.«in» ≠ some "path" := by simp [h]
    simp [processParam, h, hnp]
  · intro h
    have hnp : p.«in» ≠ some "path" := by simp [h]
    have hnq : p.«in» ≠ some "query" := by simp [h]
    simp [processParam, h, hnp, hnq]
  · intro h1 h2 h3
    simp [processParam, h1, h2, h3]
  · intro ps
    rw [processParams_spec]
    exact ⟨rfl, rfl⟩

/-- Witness for claim C6: a boolean query parameter is coerced to the text
`true` and appended percent-encoded. -/
theorem claim_C6_witness :
    processParam ⟨"/t", [], []⟩ ⟨"verbose", some "query", none, some (Json.bool true)⟩ =
      ⟨"/t", ["verbose=true"], []⟩ :=
  ((claim_C6 ⟨"/t", [], []⟩ ⟨"verbose", some "query", none, some (Json.bool true)⟩).1
    rfl).trans (by rfl)

/-- Helper: the boolean prefix test agrees with the prefix relation. -/
theorem isPrefixOfChar {l1 l2 : List Char} : l1.isPrefixOf l2 = true ↔ l1 <+: l2 :=
  List.isPrefixOf_iff_prefix

/-- Helper: a prefix of a list occurs within it. -/
theorem prefixWithin {l1 l2 : List Char} (h : l1 <+: l2) : l1 <:+: l2 :=
  List.IsPrefix.isInfix h

/-- Helper: an occurrence within the tail is an occurrence within the list. -/
theorem tailWithin (c : Char) {l1 l : List Char} (h : l1 <:+: l) : l1 <:+: c :: l :=
  h.trans ( List.IsSuffix.isInfix (List.suffix_cons c l))

/-- Helper: when the pattern does not occur in the list, first-occurrence
replacement leaves the list unchanged. -/
theorem replaceFirstList_no_occurrence (pat repl : List Char) (hne : pat ≠ []) :
    ∀ s : List Char, ¬ pat <:+: s → replaceFirstList pat repl s = s := by
  intro s
  induction s with
  | nil => intro _; simp [replaceFirstList, hne]
  | cons c rest ih =>
    intro h
    have hpre : ¬ pat.isPrefixOf (c :: rest) := by
      intro hp
      exact h (prefixWithin (isPrefixOfChar.mp hp))
    rw [replaceFirstList, if_neg hpre]
    rw [ih fun hinf => h (tailWithin c hinf)]

/-- Helper: when the pattern occurs, first-occurrence replacement rewrites
exactly the leftmost occurrence: the list splits as `a0 ++ pat ++ b0` with
`a0` of minimal length, and the result is `a0 ++ repl ++ b0`. -/
theorem replaceFirstList_first_occurrence (pat repl : List Char) (hne : pat ≠ []) :
    ∀ s a b : List Char, s = a ++ pat ++ b →
      ∃ a0 b0 : List Char, s = a0 ++ pat ++ b0 ∧
        replaceFirstList pat repl s = a0 ++ repl ++ b0 ∧
        ∀ a1 b1 : List Char, s = a1 ++ pat ++ b1 → a0.length ≤ a1.length := by
  intro s
  induction s with
  | nil =>
    intro a b hab
    exfalso
    rw [eq_comm, List.append_eq_nil, List.append_eq_nil] at hab
    exact hne hab.1.2
  | cons c rest ih =>
    intro a b hab
    by_cases hpre : pat.isPrefixOf (c :: rest)
    · obtain ⟨t, ht⟩ := isPrefixOfChar.mp hpre
      refine ⟨[], t, by simp [← ht], ?_, fun a1 b1 _ => by simp⟩
      rw [replaceFirstList, if_pos hpre, ← ht]
      simp [List.drop_left]
    · have ha : a ≠ [] := by
        rintro rfl
        exact hpre (isPrefixOfChar.mpr ⟨b, by simpa using hab.symm⟩)
      obtain ⟨c', a', rfl⟩ := List.exists_cons_of_ne_nil ha
      have hc : c' = c ∧ a' ++ (pat ++ b) = rest := by simpa using hab.symm
      obtain ⟨rfl, hrest⟩ := hc
      have hrest' : rest = a' ++ pat ++ b := by simp [← hrest]
      obtain ⟨a0, b0, h1, h2, h3⟩ := ih a' b hrest'
      refine ⟨c' :: a0, b0, by simp [h1], ?_, ?_⟩
      · rw [replaceFirstList, if_neg hpre, h2]; simp
      · intro a1 b1 h4
        have ha1 : a1 ≠ [] := by
          rintro rfl
          exact hpre (isPrefixOfChar.mpr ⟨b1, by simpa using h4.symm⟩)
        obtain ⟨c1, a1', rfl⟩ := List.exists_cons_of_ne_nil ha1
        have h5 : c1 = c' ∧ a1' ++ (pat ++ b1) = rest := by simpa using h4.symm
        have h6 : rest = a1' ++ pat ++ b1 := by simp [← h5.2]
        simpa using Nat.succ_le_succ (h3 a1' b1 h6)

/-- Claim C3: a parameter with `in = "path"` only rewrites the URL path,
replacing the first occurrence of the literal substring `{name}` with the
percent-encoded string form of the resolved value; when the template
contains no such placeholder it is left unchanged and the parameter is
silently dropped. -/
theorem claim_C3 (st : AsmState) (p : Param) (hin : p.«in» = some "path") :
    (processParam st p).queryParams = st.queryParams ∧
    (processParam st p).headers = st.headers ∧
    (processParam st p).urlPath =
      replaceFirst st.urlPath ("\x7b" ++ p.name ++ "\x7d")
        (encodeURIComponent (jsToString (paramValue p))) ∧
    (¬ ("\x7b" ++ p.name ++ "\x7d").data <:+: st.urlPath.data →
      (processParam st p).urlPath = st.urlPath) ∧
    (∀ a b : List Char,
      st.urlPath.data = a ++ ("\x7b" ++ p.name ++ "\x7d").data ++ b →
      ∃ a0 b0 : List Char,
        st.urlPath.data = a0 ++ ("\x7b" ++ p.name ++ "\x7d").data ++ b0 ∧
        (processParam st p).urlPath =
          String.mk (a0 ++ (encodeURIComponent (jsToString (paramValue p))).data ++ b0) ∧
        ∀ a1 b1 : List Char,
          st.urlPath.data = a1 ++ ("\x7b" ++ p.name ++ "\x7d").data ++ b1 →
          a0.length ≤ a1.length) := by
  have hpath : (processParam st p).urlPath =
      replaceFirst st.urlPath ("\x7b" ++ p.name ++ "\x7d")
        (encodeURIComponent (jsToString (paramValue p))) := by
    simp [processParam, hin]
  have hne : ("\x7b" ++ p.name ++ "\x7d").data ≠ [] := by
    simp [String.data_append]
  refine ⟨by simp [processParam, hin], by simp [processParam, hin], hpath, ?_, ?_⟩
  · intro hno
    rw [hpath]
    show String.mk (replaceFirstList _ _ _) = _
    rw [replaceFirstList_no_occurrence _ _ hne _ hno]
  · intro a b hab
    obtain ⟨a0, b0, h1, h2, h3⟩ :=
      replaceFirstList_first_occurrence ("\x7b" ++ p.name ++ "\x7d").data
        (encodeURIComponent (jsToString (paramValue p))).data hne st.urlPath.data a b hab
    refine ⟨a0, b0, h1, ?_, h3⟩
    rw [hpath]
    show String.mk (replaceFirstList _ _ _) = _
    rw [h2]

/-- Witness for claim C3: a template without the placeholder is unchanged. -/
theorem claim_C3_witness :
    (processParam ⟨"/plain", [], []⟩ ⟨"id", some "path", none, some (Json.str "x")⟩).urlPath =
      "/plain" :=
  (claim_C3 ⟨"/plain", [], []⟩ ⟨"id", some "path", none, some (Json.str "x")⟩
    rfl).2.2.2.1 (by decide)

/-- Claim C10: with declared parameters and a JSON body, the final header
list is exactly the parameter-derived headers followed by the appended
`Content-Type: application/json`, with no deduplication: a header parameter
itself named `Content-Type` yields its own segment in addition to the
appended one, so two `Content-Type` headers appear. -/
theorem claim_C10 (d : OperationDoc) (cp : String) (ps : List Param) (c : MediaContent)
    (hps : d.parameters = some ps) (hc : jsonContentOf d = some c) :
    finalHeaders d cp = specHeaderSeq ps ++ ["Content-Type: application/json"] ∧
    ∀ p ∈ ps, p.«in» = some "header" → p.name = "Content-Type" →
      ∃ pre post, finalHeaders d cp =
        pre ++ ("Content-Type: " ++ jsToString (paramValue p)) ::
          (post ++ ["Content-Type: application/json"]) := by
  have hmain : finalHeaders d cp = specHeaderSeq ps ++ ["Content-Type: application/json"] := by
    simp [finalHeaders, assembledState, hps, hc, processParams_spec]
  refine ⟨hmain, ?_⟩
  intro p hp hin hname
  have hmem : (p.name ++ ": " ++ jsToString (paramValue p)) ∈ specHeaderSeq ps := by
    rw [specHeaderSeq, List.mem_filterMap]
    exact ⟨p, hp, by simp [hin]⟩
  obtain ⟨pre, post, hsplit⟩ := List.append_of_mem hmem
  refine ⟨pre, post, ?_⟩
  rw [hmain, hsplit, hname]
  simp

/-- Witness for claim C10 on a concrete document whose single parameter is
a `Content-Type` header and whose body declares an explicit example. -/
theorem claim_C10_witness :
    finalHeaders
        ⟨none, some "/p",
         some [⟨"Content-Type", some "header", none, some (Json.str "text/xml")⟩],
         some ⟨some [("application/json", some ⟨some (Json.num 1), none⟩)]⟩⟩ "/p" =
      specHeaderSeq [⟨"Content-Type", some "header", none, some (Json.str "text/xml")⟩] ++
        ["Content-Type: application/json"] :=
  (claim_C10
    ⟨none, some "/p",
     some [⟨"Content-Type", some "header", none, some (Json.str "text/xml")⟩],
     some ⟨some [("application/json", some ⟨some (Json.num 1), none⟩)]⟩⟩ "/p"
    [⟨"Content-Type", some "header", none, some (Json.str "text/xml")⟩]
    ⟨some (Json.num 1), none⟩ rfl rfl).1

/-- Helper: lowercasing a tags array of strings succeeds and equals the
claim-side lowercased list. -/
theorem mapLowerE_all_str (ts : List Json)
    (h : (ts.all fun t => match t with | .str _ => true | _ => false) = true) :
    mapLowerE ts = .ok (ts.filterMap fun t =>
      match t with
      | .str s => some (toLowerStr s)
      | _ => none) := by
  induction ts with
  | nil => simp [mapLowerE]
  | cons t rest ih =>
    simp only [List.all_cons, Bool.and_eq_true] at h
    cases t <;> simp_all [mapLowerE, Except.map]

/-- Helper: on a well-typed summary or description field of an object,
lowering cannot throw and yields the lowercased claim-side extraction. -/
theorem lowerOrEmpty_ok (kvs : List (String × Json)) (key : String)
    (hx : strFieldOk (lookupFirst kvs key) = true) :
    lowerOrEmpty (lookupFirst kvs key) =
      .ok (toLowerStr (strFieldOrEmpty (.obj kvs) key)) := by
  rcases hl : lookupFirst kvs key with _ | j
  · simp [lowerOrEmpty, strFieldOrEmpty, getFieldTotal, hl, toLowerStr]
  · rw [hl] at hx
    cases j <;>
      simp_all [lowerOrEmpty, strFieldOrEmpty, getFieldTotal, strFieldOk, toLowerStr]

/-- Helper: on a well-typed tags field of an object, lowering cannot throw
and yields the claim-side lowercased tag list. -/
theorem lowerTagsE_ok (kvs : List (String × Json))
    (hx : tagsFieldOk (lookupFirst kvs "tags") = true) :
    lowerTagsE (lookupFirst kvs "tags") = .ok (lowerTagsTotal (.obj kvs)) := by
  rcases hl : lookupFirst kvs "tags" with _ | j
  · simp [lowerTagsE, lowerTagsTotal, getFieldTotal, hl]
  · rw [hl] at hx
    cases j <;>
      simp_all [lowerTagsE, lowerTagsTotal, getFieldTotal, tagsFieldOk, mapLowerE_all_str]

/-- Helper: on well-typed operations the filter predicate cannot throw and
agrees with the claim-side membership predicate. -/
theorem opMatches_wellTyped (qL : String) (tagL : Option String) (op : Json)
    (h : wellTypedOp op = true) :
    opMatches qL tagL op = .ok (specOpMatch qL tagL op) := by
  cases op with
  | null => simp [wellTypedOp] at h
  | obj kvs =>
    rw [wellTypedOp] at h
    simp only [Bool.and_eq_true] at h
    obtain ⟨⟨h1, h2⟩, h3⟩ := h
    simp [opMatches, getField, lowerOrEmpty_ok _ _ h1, lowerOrEmpty_ok _ _ h2,
      lowerTagsE_ok _ h3, specOpMatch]
  | bool b =>
    simp [opMatches, getField, lowerOrEmpty, lowerTagsE, specOpMatch, strFieldOrEmpty,
      getFieldTotal, lowerTagsTotal, toLowerStr]
  | num n =>
    simp [opMatches, getField, lowerOrEmpty, lowerTagsE, specOpMatch, strFieldOrEmpty,
      getFieldTotal, lowerTagsTotal, toLowerStr]
  | str s =>
    simp [opMatches, getField, lowerOrEmpty, lowerTagsE, specOpMatch, strFieldOrEmpty,
      getFieldTotal, lowerTagsTotal, toLowerStr]
  | arr l =>
    simp [opMatches, getField, lowerOrEmpty, lowerTagsE, specOpMatch, strFieldOrEmpty,
      getFieldTotal, lowerTagsTotal, toLowerStr]

/-- Helper: filtering with a predicate that succeeds on every element of the
list succeeds with the plain filter. -/
theorem filterE_ok {α : Type} (f : α → Except String Bool) (g : α → Bool)
    (l : List α) (h : ∀ x ∈ l, f x = .ok (g x)) :
    filterE f l = .ok (l.filter g) := by
  induction l with
  | nil => simp [filterE]
  | cons x xs ih =>
    rw [filterE, h x (List.mem_cons_self x xs),
      ih fun y hy => h y (List.mem_cons_of_mem x hy)]
    simp [List.filter_cons]

/-- Counterexample to claim C8 as stated: with the empty string supplied as
tag filter, the source's truthiness test skips tag filtering entirely, so an
operation whose tags do not contain the filter tag is still returned; the
claim as stated demands the empty result rendering `"[]"`. -/
theorem claim_C8_counterexample :
    searchCore "raw"
        (some (Json.arr [Json.obj
          [("summary", Json.str "a"), ("tags", Json.arr [Json.str "x"])]]))
        "a" (some "") =
      .ok "[\n  \x7b\n    \"summary\": \"a\",\n    \"tags\": [\n      \"x\"\n    ]\n  \x7d\n]" ∧
    (lowerTagsTotal (Json.obj
        [("summary", Json.str "a"), ("tags", Json.arr [Json.str "x"])])).contains
      (toLowerStr "") = false ∧
    ("[\n  \x7b\n    \"summary\": \"a\",\n    \"tags\": [\n      \"x\"\n    ]\n  \x7d\n]" : String) ≠
      "[]" := by
  refine ⟨rfl, rfl, by decide⟩

/-- Claim C8 (amended): for every operations list whose elements are
well-typed for the filter, the search returns the pretty-printed (two-space
indented) subsequence, in original order with original fields, of the
operations matched by the claim-side predicate — lowercased query a
substring of lowercased summary, description or some tag, and, when a
non-empty tag filter is given, the lowercased tags containing the lowercased
filter exactly (an empty tag filter imposes no constraint). -/
theorem claim_C8 (ops : List Json) (q : String) (tag? : Option String)
    (h : ∀ op ∈ ops, wellTypedOp op = true) :
    searchAfterParse (Json.arr ops) q tag? =
      .ok (jsonPretty "" (Json.arr
        (ops.filter (specOpMatch (toLowerStr q) (tag?.map toLowerStr))))) := by
  have hn : normalizeOperations (Json.arr ops) = .ok ops := by
    simp [normalizeOperations, getField]
  have hf : filterE (opMatches (toLowerStr q) (tag?.map toLowerStr)) ops =
      .ok (ops.filter (specOpMatch (toLowerStr q) (tag?.map toLowerStr))) :=
    filterE_ok _ _ ops fun op hop => opMatches_wellTyped _ _ op (h op hop)
  simp [searchAfterParse, hn, hf]

/-- Witness for claim C8 on the two-operation scenario searched for
`payment` without a tag filter. -/
theorem claim_C8_witness :
    searchAfterParse (Json.arr [
        Json.obj [("summary", Json.str "Get payment"), ("tags", Json.arr [Json.str "Payments"])],
        Json.obj [("summary", Json.str "List accounts"), ("tags", Json.arr [Json.str "Accounts"])]])
      "payment" none =
      .ok (jsonPretty "" (Json.arr
        ([Json.obj [("summary", Json.str "Get payment"), ("tags", Json.arr [Json.str "Payments"])],
          Json.obj [("summary", Json.str "List accounts"), ("tags", Json.arr [Json.str "Accounts"])]].filter
          (specOpMatch (toLowerStr "payment") (Option.map toLowerStr none))))) :=
  claim_C8 _ "payment" none (by decide)

/-- Counterexample to claim C9 as stated: the payload `null` is valid JSON
that is neither an object with an `operations` array nor a bare array, yet
the search throws a type error on the `.operations` access instead of
degrading to the empty result. -/
theorem claim_C9_counterexample :
    searchCore "null" (some Json.null) "x" none =
      .error "TypeError: Cannot read properties of null" ∧
    (Except.error "TypeError: Cannot read properties of null" : Except String String) ≠
      .ok "[]" := by
  exact ⟨rfl, by intro h; cases h⟩

/-- Claim C9 (amended): a response that is not valid JSON is returned
verbatim, and a payload parsing to a non-null JSON value that is neither an
object with an `operations` array nor a bare array degrades to the empty
result set `"[]"`; a payload parsing to JSON `null`, by contrast, throws. -/
theorem claim_C9 (resp q : String) (tag? : Option String) (parsed : Json) :
    searchCore resp none q tag? = .ok resp ∧
    (parsed ≠ Json.null → hasOperationsArray parsed = false → isJsonArray parsed = false →
      searchCore resp (some parsed) q tag? = .ok "[]") := by
  refine ⟨rfl, ?_⟩
  intro hnull hops harr
  cases parsed with
  | null => exact absurd rfl hnull
  | arr l => simp [isJsonArray] at harr
  | obj kvs =>
    rw [hasOperationsArray] at hops
    rcases hk : lookupFirst kvs "operations" with _ | j
    · rw [hk] at hops
      simp [searchCore, searchAfterParse, normalizeOperations, getField, hk, filterE,
        jsonPretty]
    · rw [hk] at hops
      cases j <;>
        simp_all [searchCore, searchAfterParse, normalizeOperations, getField, filterE,
          jsonPretty]
  | bool b =>
    simp [searchCore, searchAfterParse, normalizeOperations, getField, filterE, jsonPretty]
  | num n =>
    simp [searchCore, searchAfterParse, normalizeOperations, getField, filterE, jsonPretty]
  | str s =>
    simp [searchCore, searchAfterParse, normalizeOperations, getField, filterE, jsonPretty]

/-- Witness for claim C9: a failed parse is passed through verbatim, and a
numeric payload degrades to the empty result. -/
theorem claim_C9_witness :
    searchCore "oops" none "q" none = .ok "oops" ∧
    searchCore "5" (some (Json.num 5)) "q" none = .ok "[]" :=
  ⟨(claim_C9 "oops" "q" none (Json.num 5)).1,
   (claim_C9 "5" "q" none (Json.num 5)).2 (by intro h; cases h) rfl rfl⟩
